import Mathlib

/-!
Verification of the event-synchronization core of the Intellihire interview
client (client/components/App.jsx): streamed tool-call reconstruction, the
presentation state machine (event driver and amplitude driver), and the
completion coordinator.

The embedding is shallow.  The React component state (useState/useRef cells)
becomes an explicit AppState record; the dataChannel message listener, the
VAD frame tick, the talking fallback timer callback, and stopSession become
transitions on AppState; the deferred-completion useEffect becomes a promote
pass applied after every transition, which matches React running the effect
after each state change (running the check when its dependencies did not
change is a no-op, so applying it after every step is faithful).

JSON values are modelled by the inductive JValue.  JSON.parse is a host
builtin, so the model is parameterized by an arbitrary decoder
parse : String -> Option JValue (none models a parse exception);
JSON.stringify is embedded concretely as jsonStringify, following the
ECMAScript serialization (no whitespace, lowercase unicode escapes).
JavaScript truthiness on strings and decoded values is embedded explicitly
(jsStrTruthy, jsTruthy).  Numbers are modelled as integers; times
(performance.now) as integer milliseconds; RMS amplitudes as rationals.

One behaviour of the source matters repeatedly below: in the message
listener the whole tool-call block is wrapped in a bare try/catch.  When the
accumulated arguments decode to JSON null and the tool name is
complete_interview, the access parsed.summary throws a TypeError, the catch
swallows it, and neither the acknowledgment, nor the completion record, nor
the buffer deletion happen.  The model represents this path explicitly
(ToolPhaseResult.threw).
-/

/-- JSON values as produced by a JSON decoder.  JavaScript numbers are
restricted to integers, which covers every value appearing in the claims. -/
inductive JValue : Type where
  | jnull : JValue
  | jbool : Bool → JValue
  | jnum : Int → JValue
  | jstr : String → JValue
  | jarr : List JValue → JValue
  | jobj : List (String × JValue) → JValue

/-- Hexadecimal digit character, lowercase, as in ECMAScript QuoteJSONString. -/
def hexDigit (n : Nat) : Char :=
  if n < 10 then Char.ofNat (48 + n) else Char.ofNat (87 + n)

/-- Four-digit lowercase hexadecimal rendering of a code point. -/
def hex4 (n : Nat) : String :=
  String.mk [hexDigit (n / 4096 % 16), hexDigit (n / 256 % 16), hexDigit (n / 16 % 16), hexDigit (n % 16)]

/-- Escape one character as JSON.stringify does (ECMAScript QuoteJSONString). -/
def quoteJsonChar (c : Char) : String :=
  if c = Char.ofNat 34 then "\\\""
  else if c = Char.ofNat 92 then "\\\\"
  else if c = Char.ofNat 8 then "\\b"
  else if c = Char.ofNat 9 then "\\t"
  else if c = Char.ofNat 10 then "\\n"
  else if c = Char.ofNat 12 then "\\f"
  else if c = Char.ofNat 13 then "\\r"
  else if c.toNat < 32 then "\\u" ++ hex4 c.toNat
  else String.singleton c

/-- Quote a string as JSON.stringify does. -/
def quoteJson (s : String) : String :=
  "\"" ++ String.join (s.toList.map quoteJsonChar) ++ "\""

mutual

/-- Embedding of the host JSON.stringify (ECMAScript): no inserted
whitespace, object members in insertion order. -/
def jsonStringify : JValue → String
  | .jnull => "null"
  | .jbool true => "true"
  | .jbool false => "false"
  | .jnum n => toString n
  | .jstr s => quoteJson s
  | .jarr xs => "[" ++ jsonStringifyList xs ++ "]"
  | .jobj fs => "\x7b" ++ jsonStringifyFields fs ++ "\x7d"

/-- Comma-separated serialization of array elements. -/
def jsonStringifyList : List JValue → String
  | [] => ""
  | [x] => jsonStringify x
  | x :: y :: xs => jsonStringify x ++ "," ++ jsonStringifyList (y :: xs)

/-- Comma-separated serialization of object members. -/
def jsonStringifyFields : List (String × JValue) → String
  | [] => ""
  | [(k, v)] => quoteJson k ++ ":" ++ jsonStringify v
  | (k, v) :: f :: fs => quoteJson k ++ ":" ++ jsonStringify v ++ "," ++ jsonStringifyFields (f :: fs)

end

/-- JavaScript typeof v === "object" test on a decoded value: null, arrays
and plain objects all have typeof "object". -/
def jsTypeofIsObject : JValue → Bool
  | .jnull => true
  | .jarr _ => true
  | .jobj _ => true
  | _ => false

/-- JavaScript truthiness of a decoded value. -/
def jsTruthy : JValue → Bool
  | .jnull => false
  | .jbool b => b
  | .jnum n => n != 0
  | .jstr s => s != ""
  | .jarr _ => true
  | .jobj _ => true

/-- JavaScript property read v.k for v not null or undefined: a lookup on
objects, undefined (none) on every other value.  Reads on null are the
throwing case and are handled by the caller. -/
def jsProp (v : JValue) (k : String) : Option JValue :=
  match v with
  | .jobj fields => fields.lookup k
  | _ => none

/-- Embedding of the idiom (x || ""): keep a truthy value, otherwise the
empty string.  Used for parsed.summary || "" and parsed.reason || "". -/
def jsOrEmpty (o : Option JValue) : JValue :=
  match o with
  | some x => if jsTruthy x then x else .jstr ""
  | none => .jstr ""

/-- JavaScript truthiness of a possibly-absent string: undefined and the
empty string are falsy. -/
def jsStrTruthy : Option String → Bool
  | some s => s != ""
  | none => false

/-- Embedding of (a || b) on possibly-absent strings: b when a is falsy. -/
def jsOrStr (a b : Option String) : Option String :=
  if jsStrTruthy a then a else b

/-- Collapse (a || b) to a resolved truthy string, none when the whole
chain is falsy.  Mirrors the guard if (callId && name) in the source. -/
def optTruthy (a : Option String) : Option String :=
  if jsStrTruthy a then a else none

/-- Whether the character list pat occurs at the start of hay. -/
def listAtStart : List Char → List Char → Bool
  | [], _ => true
  | _ :: _, [] => false
  | a :: as, b :: bs => a == b && listAtStart as bs

/-- Whether the character list pat occurs anywhere inside hay; used to embed
String.prototype.includes. -/
def listHasSub (pat : List Char) : List Char → Bool
  | [] => listAtStart pat []
  | b :: bs => listAtStart pat (b :: bs) || listHasSub pat bs

/-- Embedding of t.includes(pat) on strings. -/
def strHasSub (t pat : String) : Bool :=
  listHasSub pat.toList t.toList

/-- Embedding of t.startsWith(pat) on strings. -/
def strStartsWith (t pat : String) : Bool :=
  listAtStart pat.toList t.toList

/-- Embedding of t.endsWith(pat) on strings. -/
def strEndsWith (t pat : String) : Bool :=
  listAtStart pat.toList.reverse t.toList.reverse

/-- One inbound data-channel event, with exactly the fields the handler
reads.  callDotId collapses event.call && event.call.id, functionName
collapses event.function && event.function.name, toolName collapses
event.tool && event.tool.name (absent object and absent inner field are
indistinguishable to the handler).  arguments carries the decoded JSON
value of the arguments field when present (a string value is .jstr). -/
structure Event where
  type : Option String := none
  call_id : Option String := none
  id : Option String := none
  callDotId : Option String := none
  name : Option String := none
  functionName : Option String := none
  toolName : Option String := none
  delta : Option String := none
  arguments : Option JValue := none

/-- Embedding of const type = event.type || "". -/
def typeStr (e : Event) : String :=
  (e.type).getD ""

/-- Embedding of type.includes("function_call") || type.includes("tool_call"). -/
def looksLikeToolEvent (t : String) : Bool :=
  strHasSub t "function_call" || strHasSub t "tool_call"

/-- Embedding of event.call_id || event.id || (event.call && event.call.id). -/
def resolveCallId (e : Event) : Option String :=
  jsOrStr e.call_id (jsOrStr e.id e.callDotId)

/-- Embedding of event.name || (event.function && event.function.name) ||
(event.tool && event.tool.name). -/
def resolveName (e : Event) : Option String :=
  jsOrStr e.name (jsOrStr e.functionName e.toolName)

/-- Embedding of event.delta || (typeof event.arguments === "string" ?
event.arguments : undefined). -/
def resolveDelta (e : Event) : Option String :=
  jsOrStr e.delta
    (match e.arguments with
     | some (.jstr s) => some s
     | _ => none)

/-- Embedding of the finality test on the event type tag. -/
def isFinalType (t : String) : Bool :=
  strEndsWith t ".completed" || strEndsWith t ".done" || strEndsWith t ".finished" ||
  t == "response.function_call.completed" || t == "response.tool_call.completed"

/-- Talk-start classification (isTalkDelta in the source). -/
def isTalkDeltaType (t : String) : Bool :=
  t == "response.created" || strStartsWith t "response.output_" || t == "response.delta"

/-- Talk-end classification (isTalkEnd in the source). -/
def isTalkEndType (t : String) : Bool :=
  t == "response.completed" || t == "response.done" || t == "response.stopped"

/-- Lookup in the buffer store (a JavaScript object keyed by call id,
embedded as an association list with at most one entry per key). -/
def lookupKey : List (String × String) → String → Option String
  | [], _ => none
  | (k, v) :: rest, key => if k == key then some v else lookupKey rest key

/-- Remove a key from the buffer store (the delete statement). -/
def eraseKey : List (String × String) → String → List (String × String)
  | [], _ => []
  | (k, v) :: rest, key => if k == key then eraseKey rest key else (k, v) :: eraseKey rest key

/-- Write a key in the buffer store (property assignment). -/
def setKey (m : List (String × String)) (key v : String) : List (String × String) :=
  (key, v) :: eraseKey m key

/-- One outbound message, restricted to the fields named by the
specification; the source additionally stamps a random event_id, which the
model omits. -/
structure OutMessage where
  type : String
  call_id : String
  output : String
deriving DecidableEq

/-- A reconstructed tool invocation: name, call identifier, and the decoded
arguments record. -/
structure ToolInvocation where
  name : String
  call_id : String
  arguments : JValue

/-- Millisecond hold used by the event-driven talking fallback timer. -/
def TALKING_HOLD_MS : Nat := 4000

/-- RMS threshold to start talking (0.04 in the source). -/
def VAD_START_THRESHOLD : ℚ := mkRat 4 100

/-- RMS threshold treated as silence (0.02 in the source). -/
def VAD_STOP_THRESHOLD : ℚ := mkRat 2 100

/-- Continuous-silence duration, in ms, required before idle (300 in the
source).  Times are integer milliseconds in the model. -/
def VAD_REQUIRED_SILENCE_MS : Int := 300

/-- The component state: every useState/useRef cell the synchronization
core reads or writes.  talkingTimeout is some TALKING_HOLD_MS while the
fallback timer is armed.  sent is the outbound channel log, newest first.
vadActive tells whether the recurring VAD sampler is scheduled. -/
structure AppState where
  toolCallBuffers : List (String × String)
  interviewerState : String
  talkingTimeout : Option Nat
  isInterviewCompleted : Bool
  completionSummary : JValue
  completionReason : JValue
  pendingCompletion : Option (JValue × JValue)
  isSpeaking : Bool
  lastAboveThresholdMs : Int
  vadActive : Bool
  hasDataChannel : Bool
  isSessionActive : Bool
  sent : List OutMessage

/-- A live-session state: empty buffers, idle presentation, open channel,
running sampler.  Concrete starting point for the evaluated scenarios. -/
def initState : AppState where
  toolCallBuffers := []
  interviewerState := "idle"
  talkingTimeout := none
  isInterviewCompleted := false
  completionSummary := .jstr ""
  completionReason := .jstr ""
  pendingCompletion := none
  isSpeaking := false
  lastAboveThresholdMs := 0
  vadActive := true
  hasDataChannel := true
  isSessionActive := true
  sent := []

/-- Embedding of sendClientEvent: send on the data channel when one is
present, drop (with a console error) otherwise. -/
def sendClientEvent (s : AppState) (m : OutMessage) : AppState :=
  if s.hasDataChannel then { s with sent := m :: s.sent } else s

/-- Fragment accumulation: if the event carries a truthy text fragment,
append it to the buffer for the call id (creating the buffer if absent,
via buffers[callId] || ""). -/
def applyDelta (s : AppState) (e : Event) (cid : String) : AppState :=
  match resolveDelta e with
  | some d =>
      if d != "" then
        { s with toolCallBuffers :=
            setKey s.toolCallBuffers cid ((lookupKey s.toolCallBuffers cid).getD "" ++ d) }
      else s
  | none => s

/-- Raw text taken at finalization: the buffer when truthy, otherwise the
serialization of a structured (typeof "object") arguments value, otherwise
whatever falsy buffer content there was. -/
def bufferedRaw (s : AppState) (e : Event) (cid : String) : Option String :=
  let buf := lookupKey s.toolCallBuffers cid
  if jsStrTruthy buf then buf
  else
    match e.arguments with
    | some v => if jsTypeofIsObject v then some (jsonStringify v) else buf
    | none => buf

/-- Decoded arguments at finalization: parse the raw text when truthy, with
an empty record on a decode failure or when no text is available. -/
def parsedArgs (parse : String → Option JValue) (s : AppState) (e : Event) (cid : String) : JValue :=
  match bufferedRaw s e cid with
  | some r => if r != "" then (parse r).getD (.jobj []) else .jobj []
  | none => .jobj []

/-- The acknowledgment sent for a finalized complete_interview call. -/
def ackMessage (cid : String) : OutMessage where
  type := "tool.output"
  call_id := cid
  output := jsonStringify (.jobj [("acknowledged", .jbool true)])

/-- Result of the tool-call block of the message listener: the updated
state, the reconstructed invocation when the event was terminal, and
whether the block ended in the swallowed TypeError (decoded arguments null
for a complete_interview call). -/
structure ToolPhaseResult where
  state : AppState
  invocation : Option ToolInvocation
  threw : Bool

/-- Embedding of the tool-call block of the data-channel message listener
(the try/catch around buffering, finalization, routing and cleanup). -/
def handleToolEvent (parse : String → Option JValue) (s : AppState) (e : Event) : ToolPhaseResult :=
  let t := typeStr e
  if looksLikeToolEvent t then
    match optTruthy (resolveCallId e), optTruthy (resolveName e) with
    | some cid, some nm =>
        let s1 := applyDelta s e cid
        if isFinalType t then
          let parsed := parsedArgs parse s1 e cid
          let inv := some (ToolInvocation.mk nm cid parsed)
          if nm == "complete_interview" then
            match parsed with
            | .jnull =>
                ToolPhaseResult.mk s1 inv true
            | _ =>
                let summary := jsOrEmpty (jsProp parsed "summary")
                let reason := jsOrEmpty (jsProp parsed "reason")
                let s2 := { s1 with
                  completionSummary := summary
                  completionReason := reason
                  pendingCompletion := some (summary, reason) }
                let s3 := sendClientEvent s2 (ackMessage cid)
                ToolPhaseResult.mk { s3 with toolCallBuffers := eraseKey s3.toolCallBuffers cid } inv false
          else
            ToolPhaseResult.mk { s1 with toolCallBuffers := eraseKey s1.toolCallBuffers cid } inv false
        else
          ToolPhaseResult.mk s1 none false
    | _, _ => ToolPhaseResult.mk s none false
  else ToolPhaseResult.mk s none false

/-- Embedding of the presentation-state block of the message listener:
talk-start sets talking and (re)arms the fallback timer; talk-end cancels
the timer and forces idle. -/
def handlePresentation (s : AppState) (e : Event) : AppState :=
  let t := typeStr e
  let s1 :=
    if isTalkDeltaType t then
      { s with interviewerState := "talking", talkingTimeout := some TALKING_HOLD_MS }
    else s
  if isTalkEndType t then
    { s1 with talkingTimeout := none, interviewerState := "idle" }
  else s1

/-- Expiry of the talking fallback timer: the scheduled callback forces
idle; nothing fires when the timer is not armed. -/
def fireTalkingTimeout (s : AppState) : AppState :=
  match s.talkingTimeout with
  | some _ => { s with interviewerState := "idle", talkingTimeout := none }
  | none => s

/-- One VAD sampler tick at integer time now (ms) with measured RMS rms:
hysteresis with start threshold 0.04, stop threshold 0.02 and a 300 ms
required silence counted from the last sample at or above the start
threshold.  A cancelled sampler (vadActive false, analyser detached) does
nothing. -/
def vadTick (s : AppState) (now : Int) (rms : ℚ) : AppState :=
  if s.vadActive = false then s
  else if rms ≥ VAD_START_THRESHOLD then
    let s1 := { s with lastAboveThresholdMs := now }
    if s.isSpeaking = false then
      { s1 with isSpeaking := true, interviewerState := "talking" }
    else s1
  else if s.isSpeaking = true ∧ rms < VAD_STOP_THRESHOLD ∧
      now - s.lastAboveThresholdMs > VAD_REQUIRED_SILENCE_MS then
    { s with isSpeaking := false, interviewerState := "idle" }
  else s

/-- Embedding of stopSession, restricted to the cells of this core: it
closes the channel, cancels the recurring sampler, resets the presentation
state and the completion surface, and clears the pending record.  The
buffer store and the talking fallback timer are left untouched, exactly as
in the source (stopSession never clears toolCallBuffersRef and never calls
clearTimeout on talkingTimeoutRef). -/
def stopSession (s : AppState) : AppState :=
  { s with
    hasDataChannel := false
    vadActive := false
    isSessionActive := false
    interviewerState := "idle"
    isInterviewCompleted := false
    completionSummary := .jstr ""
    completionReason := .jstr ""
    pendingCompletion := none }

/-- Embedding of the deferred-completion useEffect: when a pending record
exists and the presentation state is idle, promote it to the visible
completed flag and clear it. -/
def promote (s : AppState) : AppState :=
  if s.pendingCompletion.isSome && (s.interviewerState == "idle") then
    { s with isInterviewCompleted := true, pendingCompletion := none }
  else s

/-- The asynchronous callbacks that drive the core: an inbound
data-channel message, a VAD sampler tick, expiry of the talking fallback
timer, and session teardown. -/
inductive AppAction : Type where
  | msg : Event → AppAction
  | tick : Int → ℚ → AppAction
  | talkFire : AppAction
  | stop : AppAction

/-- One callback invocation without the trailing effect pass. -/
def rawStep (parse : String → Option JValue) (s : AppState) : AppAction → AppState
  | .msg e => handlePresentation (handleToolEvent parse s e).state e
  | .tick now rms => vadTick s now rms
  | .talkFire => fireTalkingTimeout s
  | .stop => stopSession s

/-- One callback invocation followed by the deferred-completion effect. -/
def step (parse : String → Option JValue) (s : AppState) (a : AppAction) : AppState :=
  promote (rawStep parse s a)

/-- A serialized execution of callbacks, in arrival order. -/
def run (parse : String → Option JValue) (s : AppState) : List AppAction → AppState
  | [] => s
  | a :: rest => run parse (step parse s a) rest

/-- Whether every post-callback state of an execution (observed before the
effect pass) still shows talking; used to phrase the deferred-visibility
claim for executions in which the presentation state remains talking. -/
def allRawTalking (parse : String → Option JValue) (s : AppState) : List AppAction → Bool
  | [] => true
  | a :: rest =>
      let t := rawStep parse s a
      (t.interviewerState == "talking") && allRawTalking parse (promote t) rest

/-- Decidable shape of one argument-fragment event for a given call id: a
tool-shaped, non-terminal event resolving to this call id, with a truthy
name and a truthy text fragment. -/
def isFragmentFor (cid : String) (e : Event) : Bool :=
  looksLikeToolEvent (typeStr e) &&
  (optTruthy (resolveCallId e) == some cid) &&
  (optTruthy (resolveName e)).isSome &&
  jsStrTruthy (resolveDelta e) &&
  !(isFinalType (typeStr e))

/-- Concatenation, in arrival order, of the fragments carried by a list of
events. -/
def joinDeltas : List Event → String
  | [] => ""
  | e :: rest => (resolveDelta e).getD "" ++ joinDeltas rest

/-- Concrete decoder used in the evaluated scenarios.  It agrees with the
host JSON.parse on each listed input; every other input is treated as a
decode failure. -/
def parseDemo (s : String) : Option JValue :=
  if s == "\x7b\"summary\":\"Good job\",\"reason\":\"finished_all_questions\"\x7d" then
    some (.jobj [("summary", .jstr "Good job"), ("reason", .jstr "finished_all_questions")])
  else if s == "\x7b\"summary\":42\x7d" then
    some (.jobj [("summary", .jnum 42)])
  else if s == "null" then
    some .jnull
  else none

/-- First fragment of the concrete streamed complete_interview call. -/
def fragEvent1 : Event where
  type := some "response.function_call_arguments.delta"
  call_id := some "c1"
  name := some "complete_interview"
  delta := some "\x7b\"sum"

/-- Second fragment of the concrete streamed complete_interview call. -/
def fragEvent2 : Event where
  type := some "response.function_call_arguments.delta"
  call_id := some "c1"
  name := some "complete_interview"
  delta := some "mary\":\"Good job\",\"reason\":\"finished_all_questions\"\x7d"

/-- Terminal event of the concrete streamed complete_interview call,
carrying no fragment and no structured arguments. -/
def termEvent : Event where
  type := some "response.function_call_arguments.done"
  call_id := some "c1"
  name := some "complete_interview"

/-- Fragment whose accumulated text decodes to JSON null. -/
def fragNullEvent : Event where
  type := some "response.function_call_arguments.delta"
  call_id := some "c1"
  name := some "complete_interview"
  delta := some "null"

/-- Fragment whose accumulated text decodes to an object whose summary
field is the number 42. -/
def fragNumEvent : Event where
  type := some "response.function_call_arguments.delta"
  call_id := some "c1"
  name := some "complete_interview"
  delta := some "\x7b\"summary\":42\x7d"

/-- Terminal event for a tool that is not complete_interview. -/
def termOtherEvent : Event where
  type := some "response.function_call_arguments.done"
  call_id := some "c2"
  name := some "lookup_profile"

theorem promote_frame (s : AppState) :
    (promote s).toolCallBuffers = s.toolCallBuffers ∧
    (promote s).interviewerState = s.interviewerState ∧
    (promote s).talkingTimeout = s.talkingTimeout ∧
    (promote s).completionSummary = s.completionSummary ∧
    (promote s).completionReason = s.completionReason ∧
    (promote s).isSpeaking = s.isSpeaking ∧
    (promote s).lastAboveThresholdMs = s.lastAboveThresholdMs ∧
    (promote s).vadActive = s.vadActive ∧
    (promote s).hasDataChannel = s.hasDataChannel ∧
    (promote s).isSessionActive = s.isSessionActive ∧
    (promote s).sent = s.sent := by
  unfold promote
  split <;> simp

theorem promote_fired (s : AppState)
    (h : (promote s).isInterviewCompleted = true)
    (h2 : s.isInterviewCompleted = false) :
    s.pendingCompletion.isSome = true ∧ s.interviewerState = "idle" := by
  unfold promote at h
  split at h
  · next hc =>
      simpa using hc
  · next hc =>
      rw [h2] at h
      exact absurd h (by simp)

theorem promote_notTalking (s : AppState)
    (h : s.interviewerState = "talking") : promote s = s := by
  unfold promote
  rw [if_neg]
  simp [h]

theorem promote_skip (s : AppState)
    (h : ¬ (s.pendingCompletion.isSome = true ∧ s.interviewerState = "idle")) :
    promote s = s := by
  unfold promote
  rw [if_neg]
  simp only [Bool.and_eq_true, beq_iff_eq]
  exact h

theorem handleToolEvent_frame (parse : String → Option JValue) (s : AppState) (e : Event) :
    (handleToolEvent parse s e).state.interviewerState = s.interviewerState ∧
    (handleToolEvent parse s e).state.talkingTimeout = s.talkingTimeout ∧
    (handleToolEvent parse s e).state.isInterviewCompleted = s.isInterviewCompleted ∧
    (handleToolEvent parse s e).state.isSpeaking = s.isSpeaking ∧
    (handleToolEvent parse s e).state.lastAboveThresholdMs = s.lastAboveThresholdMs ∧
    (handleToolEvent parse s e).state.vadActive = s.vadActive ∧
    (handleToolEvent parse s e).state.hasDataChannel = s.hasDataChannel ∧
    (handleToolEvent parse s e).state.isSessionActive = s.isSessionActive := by
  unfold handleToolEvent applyDelta sendClientEvent
  dsimp only
  repeat' split
  all_goals simp_all

theorem handlePresentation_frame (s : AppState) (e : Event) :
    (handlePresentation s e).toolCallBuffers = s.toolCallBuffers ∧
    (handlePresentation s e).pendingCompletion = s.pendingCompletion ∧
    (handlePresentation s e).isInterviewCompleted = s.isInterviewCompleted ∧
    (handlePresentation s e).completionSummary = s.completionSummary ∧
    (handlePresentation s e).completionReason = s.completionReason ∧
    (handlePresentation s e).isSpeaking = s.isSpeaking ∧
    (handlePresentation s e).lastAboveThresholdMs = s.lastAboveThresholdMs ∧
    (handlePresentation s e).vadActive = s.vadActive ∧
    (handlePresentation s e).hasDataChannel = s.hasDataChannel ∧
    (handlePresentation s e).isSessionActive = s.isSessionActive ∧
    (handlePresentation s e).sent = s.sent := by
  unfold handlePresentation
  dsimp only
  repeat' split
  all_goals simp_all

theorem vadTick_frame (s : AppState) (now : Int) (rms : ℚ) :
    (vadTick s now rms).toolCallBuffers = s.toolCallBuffers ∧
    (vadTick s now rms).pendingCompletion = s.pendingCompletion ∧
    (vadTick s now rms).isInterviewCompleted = s.isInterviewCompleted ∧
    (vadTick s now rms).completionSummary = s.completionSummary ∧
    (vadTick s now rms).completionReason = s.completionReason ∧
    (vadTick s now rms).talkingTimeout = s.talkingTimeout ∧
    (vadTick s now rms).vadActive = s.vadActive ∧
    (vadTick s now rms).hasDataChannel = s.hasDataChannel ∧
    (vadTick s now rms).isSessionActive = s.isSessionActive ∧
    (vadTick s now rms).sent = s.sent := by
  unfold vadTick
  dsimp only
  repeat' split
  all_goals simp_all

theorem fireTalkingTimeout_frame (s : AppState) :
    (fireTalkingTimeout s).toolCallBuffers = s.toolCallBuffers ∧
    (fireTalkingTimeout s).pendingCompletion = s.pendingCompletion ∧
    (fireTalkingTimeout s).isInterviewCompleted = s.isInterviewCompleted ∧
    (fireTalkingTimeout s).completionSummary = s.completionSummary ∧
    (fireTalkingTimeout s).completionReason = s.completionReason ∧
    (fireTalkingTimeout s).isSpeaking = s.isSpeaking ∧
    (fireTalkingTimeout s).lastAboveThresholdMs = s.lastAboveThresholdMs ∧
    (fireTalkingTimeout s).vadActive = s.vadActive ∧
    (fireTalkingTimeout s).hasDataChannel = s.hasDataChannel ∧
    (fireTalkingTimeout s).isSessionActive = s.isSessionActive ∧
    (fireTalkingTimeout s).sent = s.sent := by
  unfold fireTalkingTimeout
  split <;> simp_all

theorem rawStep_completed_false (parse : String → Option JValue) (s : AppState) (a : AppAction)
    (h : s.isInterviewCompleted = false) :
    (rawStep parse s a).isInterviewCompleted = false := by
  cases a with
  | msg e =>
      have h1 := (handleToolEvent_frame parse s e).2.2.1
      have h2 := (handlePresentation_frame (handleToolEvent parse s e).state e).2.2.1
      unfold rawStep
      rw [h2, h1, h]
  | tick now rms =>
      have h1 := (vadTick_frame s now rms).2.2.1
      unfold rawStep
      rw [h1, h]
  | talkFire =>
      have h1 := (fireTalkingTimeout_frame s).2.2.1
      unfold rawStep
      rw [h1, h]
  | stop =>
      unfold rawStep stopSession
      simp

theorem lookupKey_setKey_self (m : List (String × String)) (k v : String) :
    lookupKey (setKey m k v) k = some v := by
  unfold setKey lookupKey
  simp

theorem lookupKey_eraseKey_self (m : List (String × String)) (k : String) :
    lookupKey (eraseKey m k) k = none := by
  induction m with
  | nil => rfl
  | cons p rest ih =>
      obtain ⟨k0, v0⟩ := p
      unfold eraseKey
      by_cases h : k0 == k
      · simp only [h, if_pos]
        exact ih
      · simp only [h]
        rw [if_neg (by simp_all)]
        unfold lookupKey
        rw [if_neg (by simp_all)]
        exact ih

theorem appendNonempty (a b : String) (h : a ≠ "") : a ++ b ≠ "" := by
  intro hc
  have hd : a.data ++ b.data = [] := congrArg String.data hc
  rcases List.append_eq_nil.mp hd with ⟨h1, _⟩
  exact h (by cases a; simp_all)

theorem isFragmentFor_parts (cid : String) (e : Event) (h : isFragmentFor cid e = true) :
    looksLikeToolEvent (typeStr e) = true ∧
    optTruthy (resolveCallId e) = some cid ∧
    (optTruthy (resolveName e)).isSome = true ∧
    jsStrTruthy (resolveDelta e) = true ∧
    isFinalType (typeStr e) = false := by
  unfold isFragmentFor at h
  simp only [Bool.and_eq_true] at h
  obtain ⟨⟨⟨⟨h1, h2⟩, h3⟩, h4⟩, h5⟩ := h
  refine ⟨h1, eq_of_beq h2, h3, h4, ?_⟩
  simpa using h5

theorem step_fragment (parse : String → Option JValue) (s : AppState) (e : Event) (cid : String)
    (hf : isFragmentFor cid e = true) :
    (step parse s (.msg e)).toolCallBuffers =
      setKey s.toolCallBuffers cid
        ((lookupKey s.toolCallBuffers cid).getD "" ++ (resolveDelta e).getD "") := by
  obtain ⟨ht, hc, hn, hd, hfin⟩ := isFragmentFor_parts cid e hf
  obtain ⟨nm, hn2⟩ := Option.isSome_iff_exists.mp hn
  have hdelta : ∃ d, resolveDelta e = some d ∧ (d != "") = true := by
    cases hrd : resolveDelta e with
    | none => rw [hrd] at hd; exact absurd hd (by simp [jsStrTruthy])
    | some d =>
        rw [hrd] at hd
        exact ⟨d, rfl, by simpa [jsStrTruthy] using hd⟩
  obtain ⟨d, hrd, hdne⟩ := hdelta
  have htool : (handleToolEvent parse s e).state.toolCallBuffers =
      setKey s.toolCallBuffers cid ((lookupKey s.toolCallBuffers cid).getD "" ++ d) := by
    unfold handleToolEvent applyDelta
    simp [ht, hc, hn2, hrd, hdne, hfin]
  have hpres := (handlePresentation_frame (handleToolEvent parse s e).state e).1
  have hprom := (promote_frame (rawStep parse s (.msg e))).1
  unfold step
  rw [hprom]
  unfold rawStep
  rw [hpres, htool, hrd]
  rfl

theorem run_fragments (parse : String → Option JValue) (cid : String) (frs : List Event) :
    ∀ (s : AppState) (acc : String),
    (∀ e ∈ frs, isFragmentFor cid e = true) →
    lookupKey s.toolCallBuffers cid = some acc →
    lookupKey (run parse s (frs.map AppAction.msg)).toolCallBuffers cid =
      some (acc ++ joinDeltas frs) := by
  induction frs with
  | nil =>
      intro s acc _ hb
      simpa [run, joinDeltas, String.append_empty] using hb
  | cons e rest ih =>
      intro s acc hall hb
      have hf : isFragmentFor cid e = true := hall e (by simp)
      have hstep := step_fragment parse s e cid hf
      have hb2 : lookupKey (step parse s (.msg e)).toolCallBuffers cid =
          some (acc ++ (resolveDelta e).getD "") := by
        rw [hstep, lookupKey_setKey_self, hb]
        rfl
      have := ih (step parse s (.msg e)) (acc ++ (resolveDelta e).getD "")
        (fun x hx => hall x (by simp [hx])) hb2
      simpa [run, joinDeltas, String.append_assoc] using this

theorem handleToolEvent_final_invocation (parse : String → Option JValue)
    (s : AppState) (e : Event) (cid nm r : String) (v : JValue)
    (ht : looksLikeToolEvent (typeStr e) = true)
    (hc : optTruthy (resolveCallId e) = some cid)
    (hn : optTruthy (resolveName e) = some nm)
    (hf : isFinalType (typeStr e) = true)
    (hd : jsStrTruthy (resolveDelta e) = false)
    (hb : lookupKey s.toolCallBuffers cid = some r)
    (hr : r ≠ "")
    (hp : parse r = some v) :
    (handleToolEvent parse s e).invocation = some (ToolInvocation.mk nm cid v) := by
  have hnodelta : applyDelta s e cid = s := by
    unfold applyDelta
    cases hrd : resolveDelta e with
    | none => rfl
    | some d =>
        rw [hrd] at hd
        have hdf : (d != "") = false := by simpa [jsStrTruthy] using hd
        simp [hdf]
  have hparsed : parsedArgs parse s e cid = v := by
    unfold parsedArgs bufferedRaw
    rw [hb]
    have h1 : jsStrTruthy (some r) = true := by simpa [jsStrTruthy] using hr
    have h2 : (r != "") = true := by simpa using hr
    simp [h1, h2, hp]
  unfold handleToolEvent
  simp only [ht, hc, hn, hf, hnodelta, hparsed, if_true]
  split
  · split <;> rfl
  · rfl

/-- C1: for every sequence of tool-related fragment events sharing one call
id, each carrying a textual fragment, followed by one terminal event for
that call id (itself carrying no fragment), the structured arguments record
of the produced ToolInvocation equals the structured decoding of the
concatenation of the fragments in arrival order, for any decoder parse
standing for the host JSON.parse. -/
theorem c1_buffer_reconstruction (parse : String → Option JValue)
    (s0 : AppState) (cid nm : String) (frs : List Event) (ef : Event) (v : JValue)
    (hne : frs ≠ [])
    (hfr : ∀ e ∈ frs, isFragmentFor cid e = true)
    (hb0 : lookupKey s0.toolCallBuffers cid = none)
    (ht : looksLikeToolEvent (typeStr ef) = true)
    (hc : optTruthy (resolveCallId ef) = some cid)
    (hn : optTruthy (resolveName ef) = some nm)
    (hf : isFinalType (typeStr ef) = true)
    (hd : jsStrTruthy (resolveDelta ef) = false)
    (hp : parse (joinDeltas frs) = some v) :
    (handleToolEvent parse (run parse s0 (frs.map AppAction.msg)) ef).invocation =
      some (ToolInvocation.mk nm cid v) := by
  cases frs with
  | nil => exact absurd rfl hne
  | cons e rest =>
      have hf1 : isFragmentFor cid e = true := hfr e (by simp)
      have hstep := step_fragment parse s0 e cid hf1
      have hb1 : lookupKey (step parse s0 (.msg e)).toolCallBuffers cid =
          some ((resolveDelta e).getD "") := by
        rw [hstep, lookupKey_setKey_self, hb0]
        simp [String.empty_append]
      have hrun := run_fragments parse cid rest (step parse s0 (.msg e)) ((resolveDelta e).getD "")
        (fun x hx => hfr x (by simp [hx])) hb1
      have hrun2 : lookupKey (run parse s0 ((e :: rest).map AppAction.msg)).toolCallBuffers cid
          = some (joinDeltas (e :: rest)) := by
        simpa [run, joinDeltas] using hrun
      have hd1 : jsStrTruthy (resolveDelta e) = true := (isFragmentFor_parts cid e hf1).2.2.2.1
      have hj : joinDeltas (e :: rest) ≠ "" := by
        have hge : (resolveDelta e).getD "" ≠ "" := by
          cases hrd : resolveDelta e with
          | none => rw [hrd] at hd1; simp [jsStrTruthy] at hd1
          | some d => rw [hrd] at hd1; simpa [jsStrTruthy] using hd1
        unfold joinDeltas
        exact appendNonempty _ _ hge
      exact handleToolEvent_final_invocation parse _ ef cid nm _ v ht hc hn hf hd hrun2 hj hp

/-- Witness for C1: the concrete streamed complete_interview call of the
specification (two fragments, then a bare terminal event) reconstructs the
record with summary "Good job" and reason finished_all_questions. -/
theorem c1_buffer_reconstruction_witness :
    (handleToolEvent parseDemo
        (run parseDemo initState ([fragEvent1, fragEvent2].map AppAction.msg))
        termEvent).invocation =
      some (ToolInvocation.mk "complete_interview" "c1"
        (.jobj [("summary", .jstr "Good job"), ("reason", .jstr "finished_all_questions")])) :=
  c1_buffer_reconstruction parseDemo initState "c1" "complete_interview"
    [fragEvent1, fragEvent2] termEvent
    (.jobj [("summary", .jstr "Good job"), ("reason", .jstr "finished_all_questions")])
    (by simp) (by decide) rfl (by decide) (by decide) (by decide) (by decide) (by decide) rfl

/-- C2: a CompletionRecord becomes externally visible (isInterviewCompleted
set) if and only if the presentation state is idle at or after the moment
the record was marked pending.  Part one: whenever the completed flag
appears during an execution, some callback left a state with a pending
record and an idle presentation state, and the effect promoted it there.
Part two: in an execution whose every post-callback state still shows
talking, the flag never appears.  Part three: as soon as a pending record
coexists with an idle presentation state, the effect promotes it and clears
the pending record. -/
theorem c2_deferred_visibility (parse : String → Option JValue) :
    (∀ (s : AppState) (acts : List AppAction),
      s.isInterviewCompleted = false →
      (run parse s acts).isInterviewCompleted = true →
      ∃ l a r, acts = l ++ a :: r ∧
        (rawStep parse (run parse s l) a).pendingCompletion.isSome = true ∧
        (rawStep parse (run parse s l) a).interviewerState = "idle") ∧
    (∀ (s : AppState) (acts : List AppAction),
      s.isInterviewCompleted = false →
      allRawTalking parse s acts = true →
      (run parse s acts).isInterviewCompleted = false) ∧
    (∀ s : AppState, s.pendingCompletion.isSome = true → s.interviewerState = "idle" →
      (promote s).isInterviewCompleted = true ∧ (promote s).pendingCompletion = none) := by
  refine ⟨?_, ?_, ?_⟩
  · intro s acts
    induction acts generalizing s with
    | nil =>
        intro h0 h1
        rw [run] at h1
        exact absurd h1 (by simp [h0])
    | cons a rest ih =>
        intro h0 h1
        by_cases hc : (step parse s a).isInterviewCompleted = true
        · have hraw : (rawStep parse s a).isInterviewCompleted = false :=
            rawStep_completed_false parse s a h0
          have hfired := promote_fired (rawStep parse s a) hc hraw
          exact ⟨[], a, rest, rfl, hfired.1, hfired.2⟩
        · have hc2 : (step parse s a).isInterviewCompleted = false := by
            cases hb : (step parse s a).isInterviewCompleted
            · rfl
            · exact absurd hb hc
          have h1r : (run parse (step parse s a) rest).isInterviewCompleted = true := by
            rw [run] at h1
            exact h1
          obtain ⟨l, a2, r, heq, hp1, hp2⟩ := ih (step parse s a) hc2 h1r
          refine ⟨a :: l, a2, r, by rw [heq, List.cons_append], hp1, hp2⟩
  · intro s acts
    induction acts generalizing s with
    | nil =>
        intro h0 _
        simpa [run] using h0
    | cons a rest ih =>
        intro h0 hall
        simp only [allRawTalking, Bool.and_eq_true] at hall
        obtain ⟨htalkb, hrest⟩ := hall
        have htalk : (rawStep parse s a).interviewerState = "talking" := by
          simpa using htalkb
        have hskip : promote (rawStep parse s a) = rawStep parse s a :=
          promote_notTalking _ htalk
        have hstep : step parse s a = rawStep parse s a := by
          unfold step
          exact hskip
        have hrawc : (rawStep parse s a).isInterviewCompleted = false :=
          rawStep_completed_false parse s a h0
        rw [run, hstep]
        exact ih _ hrawc (by rw [hskip] at hrest; exact hrest)
  · intro s hp hi
    unfold promote
    rw [if_pos (by simp [hp, hi])]
    simp

/-- Witness for C2: in a live state holding a pending record while the
presentation state is idle, the effect pass makes the completion visible
and clears the pending record. -/
theorem c2_deferred_visibility_witness :
    (promote { initState with pendingCompletion := some (.jstr "done", .jstr "time_up") }).isInterviewCompleted = true ∧
    (promote { initState with pendingCompletion := some (.jstr "done", .jstr "time_up") }).pendingCompletion = none :=
  (c2_deferred_visibility parseDemo).2.2
    { initState with pendingCompletion := some (.jstr "done", .jstr "time_up") } rfl rfl

theorem applyDelta_frame (s : AppState) (e : Event) (cid : String) :
    (applyDelta s e cid).interviewerState = s.interviewerState ∧
    (applyDelta s e cid).pendingCompletion = s.pendingCompletion ∧
    (applyDelta s e cid).isInterviewCompleted = s.isInterviewCompleted ∧
    (applyDelta s e cid).completionSummary = s.completionSummary ∧
    (applyDelta s e cid).completionReason = s.completionReason ∧
    (applyDelta s e cid).hasDataChannel = s.hasDataChannel ∧
    (applyDelta s e cid).sent = s.sent := by
  unfold applyDelta
  repeat' split
  all_goals simp

theorem handleToolEvent_sent_complete (parse : String → Option JValue)
    (s : AppState) (e : Event) (cid : String)
    (ht : looksLikeToolEvent (typeStr e) = true)
    (hc : optTruthy (resolveCallId e) = some cid)
    (hn : optTruthy (resolveName e) = some "complete_interview")
    (hf : isFinalType (typeStr e) = true)
    (hnn : parsedArgs parse (applyDelta s e cid) e cid ≠ .jnull)
    (hch : s.hasDataChannel = true) :
    (handleToolEvent parse s e).state.sent = ackMessage cid :: s.sent := by
  have hbx : (applyDelta s e cid).hasDataChannel = true := by
    rw [(applyDelta_frame s e cid).2.2.2.2.2.1]
    exact hch
  have hax : (applyDelta s e cid).sent = s.sent := (applyDelta_frame s e cid).2.2.2.2.2.2
  cases hpp : parsedArgs parse (applyDelta s e cid) e cid with
  | jnull => exact absurd hpp hnn
  | jbool b => simp [handleToolEvent, ht, hc, hn, hf, hpp, sendClientEvent, hbx, hax]
  | jnum n => simp [handleToolEvent, ht, hc, hn, hf, hpp, sendClientEvent, hbx, hax]
  | jstr t => simp [handleToolEvent, ht, hc, hn, hf, hpp, sendClientEvent, hbx, hax]
  | jarr xs => simp [handleToolEvent, ht, hc, hn, hf, hpp, sendClientEvent, hbx, hax]
  | jobj fs => simp [handleToolEvent, ht, hc, hn, hf, hpp, sendClientEvent, hbx, hax]

theorem handleToolEvent_sent_other (parse : String → Option JValue)
    (s : AppState) (e : Event) (nm : String)
    (hn : optTruthy (resolveName e) = some nm)
    (hnm : nm ≠ "complete_interview") :
    (handleToolEvent parse s e).state.sent = s.sent := by
  have hb : (nm == "complete_interview") = false := by simpa using hnm
  have hax : ∀ cid, (applyDelta s e cid).sent = s.sent :=
    fun cid => (applyDelta_frame s e cid).2.2.2.2.2.2
  cases hceq : optTruthy (resolveCallId e) with
  | none =>
      cases hteq : looksLikeToolEvent (typeStr e) <;>
        simp [handleToolEvent, hceq, hteq]
  | some cid =>
      cases hteq : looksLikeToolEvent (typeStr e) <;>
        cases hfeq : isFinalType (typeStr e) <;>
          simp [handleToolEvent, hceq, hteq, hfeq, hn, hb, hax]

/-- Amended C3: for every finalized complete_interview invocation whose
decoded arguments value is not JSON null, exactly one acknowledgment is
pushed onto the outbound channel at finalization, carrying the same call
identifier, type tool.output and output exactly "\x7b\"acknowledged\":true\x7d"
(JSON.stringify inserts no space); the send happens in the message callback
itself, independent of the presentation state and of visibility, and the
promotion effect never sends; invocations of other tool names send
nothing.  When the decoded arguments value is null the handler aborts on
the swallowed TypeError and no acknowledgment is sent (see the
counterexample). -/
theorem c3_ack_amended (parse : String → Option JValue) :
    (∀ (s : AppState) (e : Event) (cid : String),
      looksLikeToolEvent (typeStr e) = true →
      optTruthy (resolveCallId e) = some cid →
      optTruthy (resolveName e) = some "complete_interview" →
      isFinalType (typeStr e) = true →
      parsedArgs parse (applyDelta s e cid) e cid ≠ .jnull →
      s.hasDataChannel = true →
      (step parse s (.msg e)).sent = ackMessage cid :: s.sent) ∧
    (∀ (s : AppState) (e : Event) (nm : String),
      optTruthy (resolveName e) = some nm →
      nm ≠ "complete_interview" →
      (step parse s (.msg e)).sent = s.sent) ∧
    (∀ cid : String, (ackMessage cid).type = "tool.output" ∧ (ackMessage cid).call_id = cid ∧
      (ackMessage cid).output = "\x7b\"acknowledged\":true\x7d") ∧
    (∀ s : AppState, (promote s).sent = s.sent) := by
  refine ⟨?_, ?_, ?_, ?_⟩
  · intro s e cid ht hc hn hf hnn hch
    unfold step
    rw [(promote_frame _).2.2.2.2.2.2.2.2.2.2]
    unfold rawStep
    rw [(handlePresentation_frame _ e).2.2.2.2.2.2.2.2.2.2]
    exact handleToolEvent_sent_complete parse s e cid ht hc hn hf hnn hch
  · intro s e nm hn hnm
    unfold step
    rw [(promote_frame _).2.2.2.2.2.2.2.2.2.2]
    unfold rawStep
    rw [(handlePresentation_frame _ e).2.2.2.2.2.2.2.2.2.2]
    exact handleToolEvent_sent_other parse s e nm hn hnm
  · intro cid
    exact ⟨rfl, rfl, rfl⟩
  · intro s
    exact (promote_frame s).2.2.2.2.2.2.2.2.2.2

/-- Witness for the amended C3: finalizing the concrete streamed
complete_interview call pushes exactly the one acknowledgment for call c1. -/
theorem c3_ack_amended_witness :
    (step parseDemo
        (run parseDemo initState ([fragEvent1, fragEvent2].map AppAction.msg))
        (.msg termEvent)).sent =
      ackMessage "c1" :: (run parseDemo initState ([fragEvent1, fragEvent2].map AppAction.msg)).sent :=
  (c3_ack_amended parseDemo).1
    (run parseDemo initState ([fragEvent1, fragEvent2].map AppAction.msg))
    termEvent "c1" (by decide) (by decide) (by decide) (by decide)
    (fun h => by exact absurd h (by intro h2; exact JValue.noConfusion h2)) rfl

/-- Counterexample for C3 as stated.  First, the acknowledgment payload has
no space: the output field the code sends is "\x7b\"acknowledged\":true\x7d"
and differs from the claimed string "\x7b\"acknowledged\": true\x7d".
Second, a finalized complete_interview invocation whose accumulated text
decodes to JSON null sends no acknowledgment at all: the swallowed
TypeError aborts the handler before sendClientEvent. -/
theorem c3_ack_counterexample :
    (run parseDemo initState [.msg fragEvent1, .msg fragEvent2, .msg termEvent]).sent =
        [ackMessage "c1"] ∧
    (ackMessage "c1").output ≠ "\x7b\"acknowledged\": true\x7d" ∧
    (run parseDemo initState [.msg fragNullEvent, .msg termEvent]).sent = [] := by
  refine ⟨rfl, by decide, rfl⟩

/-- Counterexample for C4 as stated: stopping a session with an unfinished
buffer and an armed talking fallback timer leaves both in place, because
stopSession never clears toolCallBuffersRef and never calls clearTimeout on
the fallback timer.  The buffer store is not empty and the timer is not
cancelled after teardown. -/
theorem c4_cleanup_counterexample :
    (step parseDemo
        { initState with toolCallBuffers := [("c1", "\x7b\"sum")], talkingTimeout := some TALKING_HOLD_MS }
        .stop).toolCallBuffers = [("c1", "\x7b\"sum")] ∧
    (step parseDemo
        { initState with toolCallBuffers := [("c1", "\x7b\"sum")], talkingTimeout := some TALKING_HOLD_MS }
        .stop).toolCallBuffers ≠ [] ∧
    (step parseDemo
        { initState with toolCallBuffers := [("c1", "\x7b\"sum")], talkingTimeout := some TALKING_HOLD_MS }
        .stop).talkingTimeout = some TALKING_HOLD_MS := by
  refine ⟨rfl, by decide, rfl⟩

/-- Amended C4: after a teardown signal, PendingCompletion is cleared, the
presentation state is reset to idle, the completion surface is reset, the
recurring VAD sampler is cancelled and the channel is closed — but the call
buffer store and the talking fallback timer are left exactly as they were,
whatever fragments or pending completion were in flight. -/
theorem c4_cleanup_amended (parse : String → Option JValue) (s : AppState) :
    (step parse s .stop).pendingCompletion = none ∧
    (step parse s .stop).interviewerState = "idle" ∧
    (step parse s .stop).isInterviewCompleted = false ∧
    (step parse s .stop).completionSummary = .jstr "" ∧
    (step parse s .stop).completionReason = .jstr "" ∧
    (step parse s .stop).vadActive = false ∧
    (step parse s .stop).hasDataChannel = false ∧
    (step parse s .stop).isSessionActive = false ∧
    (step parse s .stop).toolCallBuffers = s.toolCallBuffers ∧
    (step parse s .stop).talkingTimeout = s.talkingTimeout := by
  have hp : promote (stopSession s) = stopSession s :=
    promote_skip _ (by simp [stopSession])
  unfold step rawStep
  rw [hp]
  unfold stopSession
  simp

theorem vad_hold (parse : String → Option JValue) (t0 : Int) (ticks : List (Int × ℚ)) :
    ∀ s : AppState, s.vadActive = true → s.isSpeaking = true →
    s.lastAboveThresholdMs = t0 → s.interviewerState = "talking" →
    (∀ p ∈ ticks, p.2 = mkRat 1 100 ∧ p.1 - t0 ≤ 250) →
    run parse s (ticks.map fun p => AppAction.tick p.1 p.2) = s := by
  induction ticks with
  | nil => intro s _ _ _ _ _; rfl
  | cons p rest ih =>
      intro s hv hsp hlast htalk hall
      obtain ⟨hrms, htime⟩ := hall p (by simp)
      have htick : vadTick s p.1 p.2 = s := by
        unfold vadTick
        rw [if_neg (by simp [hv])]
        rw [if_neg (by rw [hrms]; decide)]
        rw [if_neg ?_]
        intro hcond
        have h3 := hcond.2.2
        rw [hlast] at h3
        unfold VAD_REQUIRED_SILENCE_MS at h3
        omega
      have hstep : step parse s (AppAction.tick p.1 p.2) = s := by
        unfold step rawStep
        dsimp only
        rw [htick]
        exact promote_notTalking s htalk
      rw [List.map_cons, run, hstep]
      exact ih s hv hsp hlast htalk (fun q hq => hall q (by simp [hq]))

/-- Counterexample for C5 as stated.  The claim says the state becomes idle
only after at least 300 ms continuously below 0.02.  In the concrete run
below, RMS 0.05 at time 0 starts talking, RMS 0.03 at time 200 is not below
the stop threshold, and RMS 0.01 at time 450 flips the state to idle
because more than 300 ms elapsed since the last sample at or above 0.04 —
even though the sample at time 200, only 250 ms before the transition, was
not below 0.02, so the signal was not continuously below 0.02 for 300 ms. -/
theorem c5_vad_counterexample :
    (run parseDemo initState
      [.tick 0 (mkRat 5 100), .tick 200 (mkRat 3 100), .tick 450 (mkRat 1 100)]).interviewerState
        = "idle" ∧
    ((450 : Int) - 200 < 300) ∧ ¬ (mkRat 3 100 < VAD_STOP_THRESHOLD) := by
  refine ⟨rfl, by decide, by decide⟩

/-- Amended C5: part one, as claimed — after a sample at or above 0.04
from a non-speaking state, a sequence of samples at 0.01 whose times stay
within 250 ms of the threshold crossing leaves the state talking (the
required 300 ms of silence have not elapsed).  Part two, amended — a tick
flips the state to idle only when the sampler is live, the speaking mark is
set, the current RMS is below 0.02, and more than 300 ms have elapsed since
the last sample at or above 0.04 (not: 300 ms continuously below 0.02). -/
theorem c5_vad_hysteresis_amended (parse : String → Option JValue) (t0 : Int) :
    (∀ (s0 : AppState) (r0 : ℚ) (ticks : List (Int × ℚ)),
      s0.vadActive = true → s0.isSpeaking = false →
      r0 ≥ VAD_START_THRESHOLD →
      (∀ p ∈ ticks, p.2 = mkRat 1 100 ∧ p.1 - t0 ≤ 250) →
      (run parse (step parse s0 (.tick t0 r0))
          (ticks.map fun p => AppAction.tick p.1 p.2)).interviewerState = "talking") ∧
    (∀ (s : AppState) (now : Int) (rms : ℚ),
      s.interviewerState ≠ "idle" →
      (vadTick s now rms).interviewerState = "idle" →
      s.vadActive = true ∧ s.isSpeaking = true ∧ rms < VAD_STOP_THRESHOLD ∧
        now - s.lastAboveThresholdMs > VAD_REQUIRED_SILENCE_MS) := by
  constructor
  · intro s0 r0 ticks hv hsp hr0 hall
    have hfirst : step parse s0 (.tick t0 r0) =
        promote { s0 with lastAboveThresholdMs := t0, isSpeaking := true, interviewerState := "talking" } := by
      unfold step rawStep vadTick
      dsimp only
      rw [if_neg (by simp [hv]), if_pos hr0, if_pos hsp]
    have hone : step parse s0 (.tick t0 r0) =
        { s0 with lastAboveThresholdMs := t0, isSpeaking := true, interviewerState := "talking" } := by
      rw [hfirst]
      exact promote_notTalking _ rfl
    rw [hone]
    rw [vad_hold parse t0 ticks _ (by simpa using hv) rfl rfl rfl hall]
  · intro s now rms hne hid
    unfold vadTick at hid
    by_cases hv : s.vadActive = false
    · rw [if_pos hv] at hid
      exact absurd hid hne
    · rw [if_neg hv] at hid
      by_cases hstart : rms ≥ VAD_START_THRESHOLD
      · rw [if_pos hstart] at hid
        by_cases hsp : s.isSpeaking = false
        · rw [if_pos hsp] at hid
          exact absurd hid (by simp)
        · rw [if_neg hsp] at hid
          exact absurd hid hne
      · rw [if_neg hstart] at hid
        by_cases hcond : s.isSpeaking = true ∧ rms < VAD_STOP_THRESHOLD ∧
            now - s.lastAboveThresholdMs > VAD_REQUIRED_SILENCE_MS
        · refine ⟨by simpa using hv, hcond.1, hcond.2.1, hcond.2.2⟩
        · rw [if_neg hcond] at hid
          exact absurd hid hne

/-- Witness for the amended C5: a concrete crossing at time 0 with RMS 0.05
followed by samples at 0.01 at times 100 and 250 leaves the state talking. -/
theorem c5_vad_hysteresis_amended_witness :
    (run parseDemo (step parseDemo initState (.tick 0 (mkRat 5 100)))
        ([((100 : Int), mkRat 1 100), ((250 : Int), mkRat 1 100)].map fun p => AppAction.tick p.1 p.2)).interviewerState
      = "talking" :=
  (c5_vad_hysteresis_amended parseDemo 0).1 initState (mkRat 5 100)
    [((100 : Int), mkRat 1 100), ((250 : Int), mkRat 1 100)]
    rfl rfl (by decide) (by decide)

theorem talkTypes_disjoint (t : String) (h : isTalkDeltaType t = true) :
    isTalkEndType t = false := by
  unfold isTalkDeltaType at h
  unfold isTalkEndType
  simp only [Bool.or_eq_true] at h
  rcases h with (h | h) | h
  · rw [eq_of_beq h]
    decide
  · have h1 : (t == "response.completed") = false := by
      cases hb : t == "response.completed"
      · rfl
      · rw [eq_of_beq hb] at h
        exact absurd h (by decide)
    have h2 : (t == "response.done") = false := by
      cases hb : t == "response.done"
      · rfl
      · rw [eq_of_beq hb] at h
        exact absurd h (by decide)
    have h3 : (t == "response.stopped") = false := by
      cases hb : t == "response.stopped"
      · rfl
      · rw [eq_of_beq hb] at h
        exact absurd h (by decide)
    simp [h1, h2, h3]
  · rw [eq_of_beq h]
    decide

/-- C6: an inbound event classified as a talk-start signal leaves the
presentation state talking and (re)arms the 4000 ms fallback timer; expiry
of the armed timer forces idle and disarms it; an event classified as a
talk-end signal cancels the timer and forces idle immediately. -/
theorem c6_event_driver (parse : String → Option JValue) :
    (∀ (s : AppState) (e : Event), isTalkDeltaType (typeStr e) = true →
      (step parse s (.msg e)).interviewerState = "talking" ∧
      (step parse s (.msg e)).talkingTimeout = some TALKING_HOLD_MS) ∧
    (∀ (s : AppState) (e : Event), isTalkEndType (typeStr e) = true →
      (step parse s (.msg e)).interviewerState = "idle" ∧
      (step parse s (.msg e)).talkingTimeout = none) ∧
    (∀ s : AppState, s.talkingTimeout.isSome = true →
      (step parse s .talkFire).interviewerState = "idle" ∧
      (step parse s .talkFire).talkingTimeout = none) := by
  refine ⟨?_, ?_, ?_⟩
  · intro s e hd
    have he : isTalkEndType (typeStr e) = false := talkTypes_disjoint _ hd
    have hp : handlePresentation (handleToolEvent parse s e).state e =
        { (handleToolEvent parse s e).state with
            interviewerState := "talking", talkingTimeout := some TALKING_HOLD_MS } := by
      unfold handlePresentation
      simp [hd, he]
    unfold step rawStep
    dsimp only
    rw [hp, promote_notTalking _ rfl]
    exact ⟨rfl, rfl⟩
  · intro s e he
    unfold step
    have f := promote_frame (rawStep parse s (.msg e))
    rw [f.2.1, f.2.2.1]
    unfold rawStep handlePresentation
    simp [he]
  · intro s hsome
    obtain ⟨d, hd⟩ := Option.isSome_iff_exists.mp hsome
    unfold step
    have f := promote_frame (rawStep parse s .talkFire)
    rw [f.2.1, f.2.2.1]
    unfold rawStep fireTalkingTimeout
    simp [hd]

/-- Witness for C6: a response.created event from a live idle state flips
the presentation state to talking and arms the 4000 ms fallback timer. -/
theorem c6_event_driver_witness :
    (step parseDemo initState (.msg { type := some "response.created" })).interviewerState = "talking" ∧
    (step parseDemo initState (.msg { type := some "response.created" })).talkingTimeout = some TALKING_HOLD_MS :=
  (c6_event_driver parseDemo).1 initState { type := some "response.created" } (by decide)

theorem applyDelta_noDelta (s : AppState) (e : Event) (cid : String)
    (hd : jsStrTruthy (resolveDelta e) = false) : applyDelta s e cid = s := by
  unfold applyDelta
  cases hrd : resolveDelta e with
  | none => rfl
  | some d =>
      rw [hrd] at hd
      have hdf : (d != "") = false := by simpa [jsStrTruthy] using hd
      simp [hdf]

theorem sendClientEvent_summary (s : AppState) (m : OutMessage) :
    (sendClientEvent s m).completionSummary = s.completionSummary := by
  unfold sendClientEvent
  split <;> rfl

theorem sendClientEvent_reason (s : AppState) (m : OutMessage) :
    (sendClientEvent s m).completionReason = s.completionReason := by
  unfold sendClientEvent
  split <;> rfl

theorem sendClientEvent_pending (s : AppState) (m : OutMessage) :
    (sendClientEvent s m).pendingCompletion = s.pendingCompletion := by
  unfold sendClientEvent
  split <;> rfl

theorem handleToolEvent_final_inv_threw (parse : String → Option JValue)
    (s : AppState) (e : Event) (cid nm : String)
    (ht : looksLikeToolEvent (typeStr e) = true)
    (hc : optTruthy (resolveCallId e) = some cid)
    (hn : optTruthy (resolveName e) = some nm)
    (hf : isFinalType (typeStr e) = true)
    (hnn : parsedArgs parse (applyDelta s e cid) e cid ≠ .jnull) :
    (handleToolEvent parse s e).invocation =
      some (ToolInvocation.mk nm cid (parsedArgs parse (applyDelta s e cid) e cid)) ∧
    (handleToolEvent parse s e).threw = false := by
  cases hpp : parsedArgs parse (applyDelta s e cid) e cid with
  | jnull => exact absurd hpp hnn
  | jbool b => cases hb : nm == "complete_interview" <;>
      simp [handleToolEvent, ht, hc, hn, hf, hpp, hb]
  | jnum n => cases hb : nm == "complete_interview" <;>
      simp [handleToolEvent, ht, hc, hn, hf, hpp, hb]
  | jstr t2 => cases hb : nm == "complete_interview" <;>
      simp [handleToolEvent, ht, hc, hn, hf, hpp, hb]
  | jarr xs => cases hb : nm == "complete_interview" <;>
      simp [handleToolEvent, ht, hc, hn, hf, hpp, hb]
  | jobj fs => cases hb : nm == "complete_interview" <;>
      simp [handleToolEvent, ht, hc, hn, hf, hpp, hb]

theorem handleToolEvent_complete_record (parse : String → Option JValue)
    (s : AppState) (e : Event) (cid : String)
    (ht : looksLikeToolEvent (typeStr e) = true)
    (hc : optTruthy (resolveCallId e) = some cid)
    (hn : optTruthy (resolveName e) = some "complete_interview")
    (hf : isFinalType (typeStr e) = true)
    (hnn : parsedArgs parse (applyDelta s e cid) e cid ≠ .jnull) :
    (handleToolEvent parse s e).state.completionSummary =
      jsOrEmpty (jsProp (parsedArgs parse (applyDelta s e cid) e cid) "summary") ∧
    (handleToolEvent parse s e).state.completionReason =
      jsOrEmpty (jsProp (parsedArgs parse (applyDelta s e cid) e cid) "reason") ∧
    (handleToolEvent parse s e).state.pendingCompletion =
      some (jsOrEmpty (jsProp (parsedArgs parse (applyDelta s e cid) e cid) "summary"),
            jsOrEmpty (jsProp (parsedArgs parse (applyDelta s e cid) e cid) "reason")) := by
  cases hpp : parsedArgs parse (applyDelta s e cid) e cid with
  | jnull => exact absurd hpp hnn
  | jbool b => simp [handleToolEvent, ht, hc, hn, hf, hpp,
      sendClientEvent_summary, sendClientEvent_reason, sendClientEvent_pending]
  | jnum n => simp [handleToolEvent, ht, hc, hn, hf, hpp,
      sendClientEvent_summary, sendClientEvent_reason, sendClientEvent_pending]
  | jstr t2 => simp [handleToolEvent, ht, hc, hn, hf, hpp,
      sendClientEvent_summary, sendClientEvent_reason, sendClientEvent_pending]
  | jarr xs => simp [handleToolEvent, ht, hc, hn, hf, hpp,
      sendClientEvent_summary, sendClientEvent_reason, sendClientEvent_pending]
  | jobj fs => simp [handleToolEvent, ht, hc, hn, hf, hpp,
      sendClientEvent_summary, sendClientEvent_reason, sendClientEvent_pending]

/-- C7 (code bug): the buffer is meant to be deleted the instant a terminal
marker is observed, but when the accumulated text of a complete_interview
call decodes to JSON null (here the single fragment "null"), the read
parsed.summary throws a TypeError that the surrounding catch swallows, the
delete statement is never reached, and the buffer survives its terminal
event.  Parse failure (buffer left decoding to nothing) and non-null
success both still clean up, confirming that cleanup is otherwise
independent of parse success. -/
theorem c7_buffer_cleanup_bug :
    (handleToolEvent parseDemo (step parseDemo initState (.msg fragNullEvent)) termEvent).threw = true ∧
    lookupKey (handleToolEvent parseDemo
        (step parseDemo initState (.msg fragNullEvent)) termEvent).state.toolCallBuffers "c1" =
      some "null" ∧
    lookupKey (run parseDemo initState
        [.msg fragEvent1, .msg termEvent]).toolCallBuffers "c1" = none ∧
    lookupKey (run parseDemo initState
        [.msg fragEvent1, .msg fragEvent2, .msg termEvent]).toolCallBuffers "c1" = none := by
  refine ⟨rfl, rfl, rfl, rfl⟩

/-- C8: a terminal event with no accumulated fragments and no structured
arguments value yields an invocation whose arguments are the empty record,
and an accumulated text that fails to decode also yields the empty record;
neither path raises (the swallowed-TypeError path is never entered, since
the empty record is not null). -/
theorem c8_empty_record_degradation (parse : String → Option JValue) :
    (∀ (s : AppState) (e : Event) (cid nm : String),
      looksLikeToolEvent (typeStr e) = true →
      optTruthy (resolveCallId e) = some cid →
      optTruthy (resolveName e) = some nm →
      isFinalType (typeStr e) = true →
      lookupKey s.toolCallBuffers cid = none →
      jsStrTruthy (resolveDelta e) = false →
      (match e.arguments with
       | some v => jsTypeofIsObject v
       | none => false) = false →
      (handleToolEvent parse s e).invocation = some (ToolInvocation.mk nm cid (.jobj [])) ∧
      (handleToolEvent parse s e).threw = false) ∧
    (∀ (s : AppState) (e : Event) (cid nm r : String),
      looksLikeToolEvent (typeStr e) = true →
      optTruthy (resolveCallId e) = some cid →
      optTruthy (resolveName e) = some nm →
      isFinalType (typeStr e) = true →
      jsStrTruthy (resolveDelta e) = false →
      lookupKey s.toolCallBuffers cid = some r →
      r ≠ "" →
      parse r = none →
      (handleToolEvent parse s e).invocation = some (ToolInvocation.mk nm cid (.jobj [])) ∧
      (handleToolEvent parse s e).threw = false) := by
  constructor
  · intro s e cid nm ht hc hn hf hb hd hobj
    have hnod : applyDelta s e cid = s := applyDelta_noDelta s e cid hd
    have hparsed : parsedArgs parse (applyDelta s e cid) e cid = .jobj [] := by
      rw [hnod]
      unfold parsedArgs bufferedRaw
      rw [hb]
      cases harg : e.arguments with
      | none => simp [jsStrTruthy]
      | some v =>
          rw [harg] at hobj
          have hobj2 : jsTypeofIsObject v = false := by simpa using hobj
          simp [jsStrTruthy, hobj2]
    have := handleToolEvent_final_inv_threw parse s e cid nm ht hc hn hf
      (by rw [hparsed]; exact fun h2 => JValue.noConfusion h2)
    rw [hparsed] at this
    exact this
  · intro s e cid nm r ht hc hn hf hd hb hr hp
    have hnod : applyDelta s e cid = s := applyDelta_noDelta s e cid hd
    have hparsed : parsedArgs parse (applyDelta s e cid) e cid = .jobj [] := by
      rw [hnod]
      unfold parsedArgs bufferedRaw
      rw [hb]
      have h1 : jsStrTruthy (some r) = true := by simpa [jsStrTruthy] using hr
      have h2 : (r != "") = true := by simpa using hr
      simp [h1, h2, hp]
    have := handleToolEvent_final_inv_threw parse s e cid nm ht hc hn hf
      (by rw [hparsed]; exact fun h2 => JValue.noConfusion h2)
    rw [hparsed] at this
    exact this

/-- Witness for C8: the bare terminal event for c1, arriving with no prior
fragments at a fresh live state, produces the empty arguments record
without entering the throwing path. -/
theorem c8_empty_record_degradation_witness :
    (handleToolEvent parseDemo initState termEvent).invocation =
      some (ToolInvocation.mk "complete_interview" "c1" (.jobj [])) ∧
    (handleToolEvent parseDemo initState termEvent).threw = false :=
  (c8_empty_record_degradation parseDemo).1 initState termEvent "c1" "complete_interview"
    (by decide) (by decide) (by decide) (by decide) rfl (by decide) rfl

/-- Counterexample for C9 as stated: when the decoded arguments carry a
truthy non-string summary (the number 42), the constructed record keeps the
number instead of the claimed empty default. -/
theorem c9_defaults_counterexample :
    (run parseDemo initState [.msg fragNumEvent, .msg termEvent]).completionSummary = .jnum 42 ∧
    (run parseDemo initState [.msg fragNumEvent, .msg termEvent]).completionSummary ≠ .jstr "" := by
  refine ⟨rfl, fun h => JValue.noConfusion h⟩

/-- Amended C9: for a finalized complete_interview invocation whose decoded
arguments are not JSON null, the constructed summary and reason each
default to the empty string exactly when the corresponding field is missing
or falsy (absent, null, false, 0 or the empty string); a truthy field value
of any type — including a non-string such as a number — is kept unchanged.
jsOrEmpty is the embedding of (parsed.field || ""). -/
theorem c9_defaults_amended (parse : String → Option JValue) :
    ∀ (s : AppState) (e : Event) (cid : String),
      looksLikeToolEvent (typeStr e) = true →
      optTruthy (resolveCallId e) = some cid →
      optTruthy (resolveName e) = some "complete_interview" →
      isFinalType (typeStr e) = true →
      parsedArgs parse (applyDelta s e cid) e cid ≠ .jnull →
      (step parse s (.msg e)).completionSummary =
        jsOrEmpty (jsProp (parsedArgs parse (applyDelta s e cid) e cid) "summary") ∧
      (step parse s (.msg e)).completionReason =
        jsOrEmpty (jsProp (parsedArgs parse (applyDelta s e cid) e cid) "reason") ∧
      (∀ x : JValue, jsOrEmpty (some x) = if jsTruthy x then x else .jstr "") ∧
      jsOrEmpty none = .jstr "" := by
  intro s e cid ht hc hn hf hnn
  have hrec := handleToolEvent_complete_record parse s e cid ht hc hn hf hnn
  have hps := (promote_frame (rawStep parse s (.msg e))).2.2.2.1
  have hpr := (promote_frame (rawStep parse s (.msg e))).2.2.2.2.1
  have hhs := (handlePresentation_frame (handleToolEvent parse s e).state e).2.2.2.1
  have hhr := (handlePresentation_frame (handleToolEvent parse s e).state e).2.2.2.2.1
  refine ⟨?_, ?_, fun x => rfl, rfl⟩
  · unfold step at hps ⊢
    rw [hps]
    unfold rawStep
    dsimp only
    rw [hhs, hrec.1]
  · unfold step at hpr ⊢
    rw [hpr]
    unfold rawStep
    dsimp only
    rw [hhr, hrec.2.1]

/-- Witness for the amended C9: finalizing the concrete streamed call sets
summary and reason from the truthy decoded string fields. -/
theorem c9_defaults_amended_witness :
    (step parseDemo
        (run parseDemo initState ([fragEvent1, fragEvent2].map AppAction.msg))
        (.msg termEvent)).completionSummary =
      jsOrEmpty (jsProp (parsedArgs parseDemo
        (applyDelta (run parseDemo initState ([fragEvent1, fragEvent2].map AppAction.msg)) termEvent "c1")
        termEvent "c1") "summary") ∧
    (step parseDemo
        (run parseDemo initState ([fragEvent1, fragEvent2].map AppAction.msg))
        (.msg termEvent)).completionReason =
      jsOrEmpty (jsProp (parsedArgs parseDemo
        (applyDelta (run parseDemo initState ([fragEvent1, fragEvent2].map AppAction.msg)) termEvent "c1")
        termEvent "c1") "reason") ∧
    (∀ x : JValue, jsOrEmpty (some x) = if jsTruthy x then x else .jstr "") ∧
    jsOrEmpty none = .jstr "" :=
  c9_defaults_amended parseDemo
    (run parseDemo initState ([fragEvent1, fragEvent2].map AppAction.msg))
    termEvent "c1" (by decide) (by decide) (by decide) (by decide)
    (fun h => JValue.noConfusion h)

/-- Counterexample for C10 as stated: a second complete_interview
finalization whose decoded arguments are JSON null does not update the
displayed summary — the swallowed TypeError aborts before the writes — so
the displayed value stays at its previous value instead of the
empty-default the construction rule prescribes for a record with no usable
fields. -/
theorem c10_frame_counterexample :
    (run parseDemo
      { initState with
          completionSummary := .jstr "old"
          completionReason := .jstr "r"
          pendingCompletion := some (.jstr "old", .jstr "r")
          interviewerState := "talking" }
      [.msg fragNullEvent, .msg termEvent]).completionSummary = .jstr "old" ∧
    (.jstr "old" : JValue) ≠ .jstr "" := by
  refine ⟨rfl, ?_⟩
  intro h
  injection h with h2
  exact absurd h2 (by decide)

/-- Amended C10: for every finalized complete_interview invocation whose
decoded arguments are not JSON null, the summary and reason surfaced to the
UI are written by the message callback itself — before the deferred
promotion effect runs, and whatever the presentation state, the pending
record or the visibility flag were, so a second finalization overwrites
them even while an earlier completion is pending or visible; and the
promotion effect changes nothing but the visibility flag and the pending
record. -/
theorem c10_frame_amended (parse : String → Option JValue) :
    (∀ (s : AppState) (e : Event) (cid : String),
      looksLikeToolEvent (typeStr e) = true →
      optTruthy (resolveCallId e) = some cid →
      optTruthy (resolveName e) = some "complete_interview" →
      isFinalType (typeStr e) = true →
      parsedArgs parse (applyDelta s e cid) e cid ≠ .jnull →
      (rawStep parse s (.msg e)).completionSummary =
        jsOrEmpty (jsProp (parsedArgs parse (applyDelta s e cid) e cid) "summary") ∧
      (rawStep parse s (.msg e)).completionReason =
        jsOrEmpty (jsProp (parsedArgs parse (applyDelta s e cid) e cid) "reason")) ∧
    (∀ s : AppState,
      (promote s).completionSummary = s.completionSummary ∧
      (promote s).completionReason = s.completionReason ∧
      (promote s).toolCallBuffers = s.toolCallBuffers ∧
      (promote s).interviewerState = s.interviewerState ∧
      (promote s).talkingTimeout = s.talkingTimeout ∧
      (promote s).sent = s.sent ∧
      (promote s).isSpeaking = s.isSpeaking ∧
      (promote s).lastAboveThresholdMs = s.lastAboveThresholdMs ∧
      (promote s).vadActive = s.vadActive ∧
      (promote s).hasDataChannel = s.hasDataChannel) := by
  constructor
  · intro s e cid ht hc hn hf hnn
    have hrec := handleToolEvent_complete_record parse s e cid ht hc hn hf hnn
    have hhs := (handlePresentation_frame (handleToolEvent parse s e).state e).2.2.2.1
    have hhr := (handlePresentation_frame (handleToolEvent parse s e).state e).2.2.2.2.1
    unfold rawStep
    dsimp only
    exact ⟨by rw [hhs, hrec.1], by rw [hhr, hrec.2.1]⟩
  · intro s
    have f := promote_frame s
    exact ⟨f.2.2.2.1, f.2.2.2.2.1, f.1, f.2.1, f.2.2.1, f.2.2.2.2.2.2.2.2.2.2,
      f.2.2.2.2.2.1, f.2.2.2.2.2.2.1, f.2.2.2.2.2.2.2.1, f.2.2.2.2.2.2.2.2.1⟩

/-- Witness for the amended C10: a finalization arriving while an earlier
completion is pending and already visible, with the presentation state
still talking, immediately overwrites the displayed summary and reason in
the raw callback, before any promotion. -/
theorem c10_frame_amended_witness :
    (rawStep parseDemo
        { initState with
            completionSummary := .jstr "old"
            completionReason := .jstr "r"
            pendingCompletion := some (.jstr "old", .jstr "r")
            isInterviewCompleted := true
            interviewerState := "talking"
            toolCallBuffers := [("c1", "\x7b\"summary\":\"Good job\",\"reason\":\"finished_all_questions\"\x7d")] }
        (.msg termEvent)).completionSummary =
      jsOrEmpty (jsProp (parsedArgs parseDemo
        (applyDelta
          { initState with
              completionSummary := .jstr "old"
              completionReason := .jstr "r"
              pendingCompletion := some (.jstr "old", .jstr "r")
              isInterviewCompleted := true
              interviewerState := "talking"
              toolCallBuffers := [("c1", "\x7b\"summary\":\"Good job\",\"reason\":\"finished_all_questions\"\x7d")] }
          termEvent "c1")
        termEvent "c1") "summary") ∧
    (rawStep parseDemo
        { initState with
            completionSummary := .jstr "old"
            completionReason := .jstr "r"
            pendingCompletion := some (.jstr "old", .jstr "r")
            isInterviewCompleted := true
            interviewerState := "talking"
            toolCallBuffers := [("c1", "\x7b\"summary\":\"Good job\",\"reason\":\"finished_all_questions\"\x7d")] }
        (.msg termEvent)).completionReason =
      jsOrEmpty (jsProp (parsedArgs parseDemo
        (applyDelta
          { initState with
              completionSummary := .jstr "old"
              completionReason := .jstr "r"
              pendingCompletion := some (.jstr "old", .jstr "r")
              isInterviewCompleted := true
              interviewerState := "talking"
              toolCallBuffers := [("c1", "\x7b\"summary\":\"Good job\",\"reason\":\"finished_all_questions\"\x7d")] }
          termEvent "c1")
        termEvent "c1") "reason") :=
  (c10_frame_amended parseDemo).1
    { initState with
        completionSummary := .jstr "old"
        completionReason := .jstr "r"
        pendingCompletion := some (.jstr "old", .jstr "r")
        isInterviewCompleted := true
        interviewerState := "talking"
        toolCallBuffers := [("c1", "\x7b\"summary\":\"Good job\",\"reason\":\"finished_all_questions\"\x7d")] }
    termEvent "c1" (by decide) (by decide) (by decide) (by decide)
    (fun h => JValue.noConfusion h)
